import Mathlib

set_option autoImplicit false

set_option maxRecDepth 8192

/-!
Verification development for the Leap Motion mouse controller
(`leap_mouse.py`).  The gesture engine is shallowly embedded: Python
floats are modelled by exact rationals (`ℚ`), mutable listener state by
the explicit record `EngineState`, and calls on the mouse actuator and
the exit callback by an emitted `Event` list.  A Python
`ZeroDivisionError` raised inside a handler is modelled by an `Option`
result (`none` = the frame raises).
-/

/-- Interaction mode, mirroring `class Mode(Enum)` in `leap_mouse.py`. -/
inductive Mode where
  | CURSOR
  | SCROLL
  | PAN
  | ZOOM
  | EXIT_PENDING
  deriving DecidableEq, Repr

/-- Result of `get_hand_state`: the Python strings `'fist'`, `'pinch'`,
`'open'`, `'neutral'` (`open` is a Lean keyword, hence `openHand`). -/
inductive HandState where
  | fist
  | pinch
  | openHand
  | neutral
  deriving DecidableEq, Repr

/-- One tracked hand of a frame: palm position and the two strengths. -/
structure Hand where
  palm_x : ℚ
  palm_y : ℚ
  palm_z : ℚ
  grab_strength : ℚ
  pinch_strength : ℚ
  deriving DecidableEq, Repr

/-- The `Config` dataclass of `leap_mouse.py`.  Screen dimensions are
pixel counts, modelled as naturals. -/
structure Config where
  sensitivity : ℚ
  smoothing : ℚ
  pinch_engage : ℚ
  pinch_release : ℚ
  pinch_smoothing : ℚ
  fist_threshold : ℚ
  open_threshold : ℚ
  pinch_threshold : ℚ
  drag_delay : ℚ
  exit_hold_time : ℚ
  scroll_sensitivity : ℚ
  zoom_sensitivity : ℚ
  double_click_window : ℚ
  leap_x_range : ℚ × ℚ
  leap_y_range : ℚ × ℚ
  screen_width : ℕ
  screen_height : ℕ
  deriving DecidableEq, Repr

/-- Default values of the `Config` dataclass (screen defaults to
1920 x 1080 when `screeninfo` is absent). -/
def defaultConfig : Config where
  sensitivity := 3/2
  smoothing := 3/10
  pinch_engage := 7/10
  pinch_release := 3/10
  pinch_smoothing := 1/2
  fist_threshold := 8/10
  open_threshold := 4/10
  pinch_threshold := 6/10
  drag_delay := 15/100
  exit_hold_time := 1
  scroll_sensitivity := 5/100
  zoom_sensitivity := 2/100
  double_click_window := 4/10
  leap_x_range := (-150, 150)
  leap_y_range := (100, 350)
  screen_width := 1920
  screen_height := 1080

/-- All mutable fields of `LeapMouseListener` that the tracking path
touches (the window flag is passed to the dispatcher separately, see
`on_tracking_event`). -/
structure EngineState where
  mode : Mode
  prev_mode : Mode
  smoothed_position : Option (ℤ × ℤ)
  smoothed_pinch : ℚ
  is_pinched : Bool
  pinch_start_time : Option ℚ
  is_dragging : Bool
  did_drag : Bool
  last_click_time : ℚ
  is_panning : Bool
  last_pan_pos : Option (ℚ × ℚ)
  last_scroll_y : Option ℚ
  last_hand_distance : Option ℚ
  exit_start_time : Option ℚ
  deriving DecidableEq, Repr

/-- Listener state right after `__init__`. -/
def initial_state : EngineState where
  mode := Mode.CURSOR
  prev_mode := Mode.CURSOR
  smoothed_position := none
  smoothed_pinch := 0
  is_pinched := false
  pinch_start_time := none
  is_dragging := false
  did_drag := false
  last_click_time := 0
  is_panning := false
  last_pan_pos := none
  last_scroll_y := none
  last_hand_distance := none
  exit_start_time := none

/-- Observable effects of one processed frame: calls on the pynput
mouse controller plus the exit callback. -/
inductive Event where
  | moveTo (p : ℤ × ℤ)
  | moveBy (d : ℤ × ℤ)
  | pressLeft
  | releaseLeft
  | clickLeft (count : ℕ)
  | pressMiddle
  | releaseMiddle
  | scroll (amount : ℤ)
  | exitSignal
  deriving DecidableEq, Repr

/-- Number of occurrences of one event in an emitted list. -/
def countEv (e : Event) (evs : List Event) : ℕ :=
  (evs.filter (fun x => x = e)).length

/-- Python `int()` on a real value: truncation toward zero. -/
def pythonInt (q : ℚ) : ℤ :=
  if 0 ≤ q then ⌊q⌋ else ⌈q⌉

/-- The method `get_hand_state` of `LeapMouseListener`. -/
def get_hand_state (cfg : Config) (hand : Hand) : HandState :=
  if cfg.fist_threshold ≤ hand.grab_strength then HandState.fist
  else if cfg.pinch_threshold ≤ hand.pinch_strength then HandState.pinch
  else if hand.grab_strength < cfg.open_threshold then HandState.openHand
  else HandState.neutral

/-- The method `determine_mode`; `curMode` is the value of `self.mode`
read by the lone-left-hand branch. -/
def determine_mode (cfg : Config) (curMode : Mode)
    (left_hand right_hand : Option Hand) : Mode :=
  match left_hand, right_hand with
  | none, none => Mode.CURSOR
  | none, some _ => Mode.CURSOR
  | some _, none => curMode
  | some lh, some rh =>
    let left_state := get_hand_state cfg lh
    let right_state := get_hand_state cfg rh
    if left_state = HandState.fist ∧ right_state = HandState.fist then
      Mode.EXIT_PENDING
    else if left_state = HandState.fist ∧
        (right_state = HandState.openHand ∨ right_state = HandState.neutral) then
      Mode.SCROLL
    else if left_state = HandState.pinch ∧ right_state = HandState.pinch then
      Mode.ZOOM
    else if (left_state = HandState.openHand ∨ left_state = HandState.neutral) ∧
        (right_state = HandState.openHand ∨ right_state = HandState.neutral) then
      Mode.PAN
    else
      Mode.CURSOR

/-- The method `map_to_screen` on the palm x/y coordinates.  Python
raises `ZeroDivisionError` when an axis range is degenerate; the model
returns `none` there. -/
def map_to_screen (cfg : Config) (palm_x palm_y : ℚ) : Option (ℤ × ℤ) :=
  let x_min := cfg.leap_x_range.1
  let x_max := cfg.leap_x_range.2
  let y_min := cfg.leap_y_range.1
  let y_max := cfg.leap_y_range.2
  if x_max - x_min = 0 ∨ y_max - y_min = 0 then none
  else
    let norm_x := (palm_x - x_min) / (x_max - x_min)
    let norm_y := (palm_y - y_min) / (y_max - y_min)
    let norm_x := max 0 (min 1 norm_x)
    let norm_y := max 0 (min 1 norm_y)
    let center : ℚ := 1/2
    let norm_x := center + (norm_x - center) * cfg.sensitivity
    let norm_y := center + (norm_y - center) * cfg.sensitivity
    let norm_x := max 0 (min 1 norm_x)
    let norm_y := max 0 (min 1 norm_y)
    let screen_x := pythonInt (norm_x * cfg.screen_width)
    let screen_y := pythonInt ((1 - norm_y) * cfg.screen_height)
    some (screen_x, screen_y)

example : map_to_screen defaultConfig 0 225 = some (960, 540) := by
  with_unfolding_all rfl

/-- The method `smooth_position`; returns the position handed to the
mouse together with the updated state. -/
def smooth_position (cfg : Config) (s : EngineState) (new_pos : ℤ × ℤ) :
    EngineState × (ℤ × ℤ) :=
  match s.smoothed_position with
  | none => ({ s with smoothed_position := some new_pos }, new_pos)
  | some prev =>
    let alpha := 1 - cfg.smoothing
    let smooth_x := pythonInt (alpha * new_pos.1 + cfg.smoothing * prev.1)
    let smooth_y := pythonInt (alpha * new_pos.2 + cfg.smoothing * prev.2)
    ({ s with smoothed_position := some (smooth_x, smooth_y) },
      (smooth_x, smooth_y))

/-- The method `smooth_pinch`; returns the updated state and the
smoothed strength. -/
def smooth_pinch (cfg : Config) (s : EngineState) (raw_pinch : ℚ) :
    EngineState × ℚ :=
  let alpha := 1 - cfg.pinch_smoothing
  let p := alpha * raw_pinch + cfg.pinch_smoothing * s.smoothed_pinch
  ({ s with smoothed_pinch := p }, p)

/-- The method `release_all_buttons`. -/
def release_all_buttons (s : EngineState) : EngineState × List Event :=
  let (s1, evs1) :=
    if s.is_dragging then
      ({ s with is_dragging := false, is_pinched := false },
        [Event.releaseLeft])
    else (s, [])
  if s1.is_panning then
    ({ s1 with is_panning := false }, evs1 ++ [Event.releaseMiddle])
  else (s1, evs1)

/-- The method `handle_mode_change`. -/
def handle_mode_change (new_mode : Mode) (s : EngineState) :
    EngineState × List Event :=
  if new_mode ≠ s.mode then
    let (s1, evs) := release_all_buttons s
    let s2 := { s1 with
      last_scroll_y := none
      last_hand_distance := none
      last_pan_pos := none }
    let s3 :=
      if new_mode ≠ Mode.EXIT_PENDING then
        { s2 with exit_start_time := none }
      else s2
    ({ s3 with prev_mode := s3.mode, mode := new_mode }, evs)
  else (s, [])

/-- The method `handle_cursor_mode`; `none` models a
`ZeroDivisionError` escaping from `map_to_screen`. -/
def handle_cursor_mode (cfg : Config) (current_time : ℚ) (right_hand : Hand)
    (s : EngineState) : Option (EngineState × List Event) :=
  match map_to_screen cfg right_hand.palm_x right_hand.palm_y with
  | none => none
  | some screen_pos =>
    let (s, smooth_pos) := smooth_position cfg s screen_pos
    let moveEvs := [Event.moveTo smooth_pos]
    let (s, pinch) := smooth_pinch cfg s right_hand.pinch_strength
    if s.is_pinched = false then
      if cfg.pinch_engage ≤ pinch then
        some ({ s with
          is_pinched := true
          pinch_start_time := some current_time
          did_drag := false }, moveEvs)
      else
        some (s, moveEvs)
    else
      let pinch_duration := current_time - s.pinch_start_time.getD current_time
      let (s, dragEvs) :=
        if s.is_dragging = false ∧ cfg.drag_delay ≤ pinch_duration then
          ({ s with is_dragging := true, did_drag := true },
            [Event.pressLeft])
        else (s, [])
      if pinch < cfg.pinch_release then
        if s.is_dragging then
          some ({ s with
            is_dragging := false
            is_pinched := false
            pinch_start_time := none
            did_drag := false }, moveEvs ++ dragEvs ++ [Event.releaseLeft])
        else if s.did_drag = false then
          let time_since_last := current_time - s.last_click_time
          let clickEv :=
            if time_since_last ≤ cfg.double_click_window then
              Event.clickLeft 2
            else
              Event.clickLeft 1
          some ({ s with
            last_click_time := current_time
            is_pinched := false
            pinch_start_time := none
            did_drag := false }, moveEvs ++ dragEvs ++ [clickEv])
        else
          some ({ s with
            is_pinched := false
            pinch_start_time := none
            did_drag := false }, moveEvs ++ dragEvs)
      else
        some (s, moveEvs ++ dragEvs)

/-- The method `handle_scroll_mode`. -/
def handle_scroll_mode (cfg : Config) (right_hand : Hand) (s : EngineState) :
    EngineState × List Event :=
  let current_y := right_hand.palm_y
  let evs :=
    match s.last_scroll_y with
    | none => []
    | some last_y =>
      let scroll_amount := pythonInt ((current_y - last_y) * cfg.scroll_sensitivity)
      if scroll_amount ≠ 0 then [Event.scroll scroll_amount] else []
  ({ s with last_scroll_y := some current_y }, evs)

/-- The method `handle_pan_mode`. -/
def handle_pan_mode (cfg : Config) (left_hand right_hand : Hand)
    (s : EngineState) : EngineState × List Event :=
  let avg_x := (left_hand.palm_x + right_hand.palm_x) / 2
  let avg_y := (left_hand.palm_y + right_hand.palm_y) / 2
  if s.is_panning = false then
    ({ s with is_panning := true, last_pan_pos := some (avg_x, avg_y) },
      [Event.pressMiddle])
  else
    let evs :=
      match s.last_pan_pos with
      | none => []
      | some lp =>
        let delta_x := (avg_x - lp.1) * cfg.sensitivity
        let delta_y := -(avg_y - lp.2) * cfg.sensitivity
        [Event.moveBy (pythonInt delta_x, pythonInt delta_y)]
    ({ s with last_pan_pos := some (avg_x, avg_y) }, evs)

/-- The method `handle_zoom_mode`.  Python computes `math.sqrt` on a
float; the model uses the rational approximation `Rat.sqrt`.  The
claims below depend only on whether `last_hand_distance` is set, never
on the numeric value of the distance. -/
def handle_zoom_mode (cfg : Config) (left_hand right_hand : Hand)
    (s : EngineState) : EngineState × List Event :=
  let dx := right_hand.palm_x - left_hand.palm_x
  let dy := right_hand.palm_y - left_hand.palm_y
  let dz := right_hand.palm_z - left_hand.palm_z
  let distance := Rat.sqrt (dx * dx + dy * dy + dz * dz)
  let evs :=
    match s.last_hand_distance with
    | none => []
    | some last_d =>
      let scroll_amount := pythonInt ((distance - last_d) * cfg.zoom_sensitivity)
      if scroll_amount ≠ 0 then [Event.scroll scroll_amount] else []
  ({ s with last_hand_distance := some distance }, evs)

/-- The method `handle_exit_pending`; `Event.exitSignal` models the
call of `self.exit_callback()`. -/
def handle_exit_pending (cfg : Config) (current_time : ℚ) (s : EngineState) :
    EngineState × List Event :=
  let t0 := s.exit_start_time.getD current_time
  let s1 := { s with exit_start_time := some t0 }
  if cfg.exit_hold_time ≤ current_time - t0 then
    (s1, [Event.exitSignal])
  else
    (s1, [])

/-- Mode dispatch of `on_tracking_event` (the if/elif chain after
`handle_mode_change`). -/
def dispatch_mode (cfg : Config) (current_time : ℚ)
    (left_hand right_hand : Option Hand) (s : EngineState) :
    Option (EngineState × List Event) :=
  match s.mode, left_hand, right_hand with
  | Mode.CURSOR, _, some rh => handle_cursor_mode cfg current_time rh s
  | Mode.SCROLL, _, some rh => some (handle_scroll_mode cfg rh s)
  | Mode.PAN, some lh, some rh => some (handle_pan_mode cfg lh rh s)
  | Mode.ZOOM, some lh, some rh => some (handle_zoom_mode cfg lh rh s)
  | Mode.EXIT_PENDING, _, _ => some (handle_exit_pending cfg current_time s)
  | _, _, _ => some (s, [])

/-- The method `on_tracking_event`.  A frame is the pair of optional
hands after the handedness partition (`window_active` is the value the
`is_target_window_active` check reads). -/
def on_tracking_event (cfg : Config) (current_time : ℚ) (window_active : Bool)
    (left_hand right_hand : Option Hand) (s : EngineState) :
    Option (EngineState × List Event) :=
  if window_active = false then
    some (s, [])
  else if left_hand = none ∧ right_hand = none then
    if s.is_dragging ∨ s.is_panning then
      some (release_all_buttons s)
    else
      some (s, [])
  else
    let new_mode := determine_mode cfg s.mode left_hand right_hand
    let (s1, evs1) := handle_mode_change new_mode s
    match dispatch_mode cfg current_time left_hand right_hand s1 with
    | none => none
    | some (s2, evs2) => some (s2, evs1 ++ evs2)

/-- One iteration body of the `_monitor_window` polling loop: given the
result of `get_frontmost_app()` and the current shared flag, returns
the new flag and whether `release_all_buttons` was invoked. -/
def monitor_window_step (target_window : String) (active_app : Option String)
    (window_active : Bool) : Bool × Bool :=
  match active_app with
  | none => (window_active, false)
  | some app =>
    let is_active := target_window.toLower = app.toLower
    (decide is_active, window_active && !(decide is_active))

/-- Runs `handle_cursor_mode` over a list of `(time, right hand)`
frames, concatenating the emitted events. -/
def run_cursor (cfg : Config) (frames : List (ℚ × Hand)) (s : EngineState) :
    Option (EngineState × List Event) :=
  match frames with
  | [] => some (s, [])
  | (t, h) :: rest =>
    match handle_cursor_mode cfg t h s with
    | none => none
    | some (s1, evs1) =>
      match run_cursor cfg rest s1 with
      | none => none
      | some (s2, evs2) => some (s2, evs1 ++ evs2)

/-- Runs `handle_exit_pending` at a list of frame times. -/
def run_exit_pending (cfg : Config) (times : List ℚ) (s : EngineState) :
    EngineState × List Event :=
  match times with
  | [] => (s, [])
  | t :: rest =>
    let (s1, evs1) := handle_exit_pending cfg t s
    let (s2, evs2) := run_exit_pending cfg rest s1
    (s2, evs1 ++ evs2)

/-- Runs `on_tracking_event` over a list of
`(time, left hand, right hand)` frames with the window active. -/
def run_frames (cfg : Config) (frames : List (ℚ × Option Hand × Option Hand))
    (s : EngineState) : Option (EngineState × List Event) :=
  match frames with
  | [] => some (s, [])
  | (t, lh, rh) :: rest =>
    match on_tracking_event cfg t true lh rh s with
    | none => none
    | some (s1, evs1) =>
      match run_frames cfg rest s1 with
      | none => none
      | some (s2, evs2) => some (s2, evs1 ++ evs2)

/-- Successive values of the smoothed pinch strength produced by
`smooth_pinch` along a list of raw samples. -/
def smooth_trace (alpha p0 : ℚ) (raws : List ℚ) : List ℚ :=
  match raws with
  | [] => []
  | r :: rest =>
    let p := (1 - alpha) * r + alpha * p0
    p :: smooth_trace alpha p rest

/-- Final smoothed pinch value after a list of raw samples. -/
def smooth_final (alpha p0 : ℚ) (raws : List ℚ) : ℚ :=
  raws.foldl (fun p r => (1 - alpha) * r + alpha * p) p0

/-! ## Spec-side definitions used by refinement-style claims -/

/-- Classification exactly as the specification words it (section 4.4):
Fist when grab is at least fist_threshold, else Pinch when pinch is at
least pinch_threshold, else Open when grab is below open_threshold,
else Neutral. -/
def spec_classify (cfg : Config) (hand : Hand) : HandState :=
  if cfg.fist_threshold ≤ hand.grab_strength then HandState.fist
  else if cfg.pinch_threshold ≤ hand.pinch_strength then HandState.pinch
  else if hand.grab_strength < cfg.open_threshold then HandState.openHand
  else HandState.neutral

/-- Mode selection for two present hands exactly as the specification
words it (section 4.4, rule 4). -/
def spec_mode_both (ls rs : HandState) : Mode :=
  if ls = HandState.fist ∧ rs = HandState.fist then Mode.EXIT_PENDING
  else if ls = HandState.fist ∧
      (rs = HandState.openHand ∨ rs = HandState.neutral) then Mode.SCROLL
  else if ls = HandState.pinch ∧ rs = HandState.pinch then Mode.ZOOM
  else if (ls = HandState.openHand ∨ ls = HandState.neutral) ∧
      (rs = HandState.openHand ∨ rs = HandState.neutral) then Mode.PAN
  else Mode.CURSOR

/-- Coordinate mapping as the specification words it in section 4.2,
except with the truncation the code actually performs in place of the
round the spec claims (this is amended claim C8). -/
def spec_map_floor (cfg : Config) (palm_x palm_y : ℚ) : Option (ℤ × ℤ) :=
  let x_min := cfg.leap_x_range.1
  let x_max := cfg.leap_x_range.2
  let y_min := cfg.leap_y_range.1
  let y_max := cfg.leap_y_range.2
  if x_max - x_min = 0 ∨ y_max - y_min = 0 then none
  else
    let nx := max 0 (min 1 ((palm_x - x_min) / (x_max - x_min)))
    let ny := max 0 (min 1 ((palm_y - y_min) / (y_max - y_min)))
    let nx := max 0 (min 1 (1/2 + (nx - 1/2) * cfg.sensitivity))
    let ny := max 0 (min 1 (1/2 + (ny - 1/2) * cfg.sensitivity))
    some (⌊nx * cfg.screen_width⌋, ⌊(1 - ny) * cfg.screen_height⌋)

/-- Coordinate mapping exactly as claim C8 words it, with pixel
coordinates produced by rounding (the counterexample to C8 shows the
code truncates instead).  At the chosen counterexample the fractional
part is 0.6, where every common rounding convention disagrees with
truncation. -/
def spec_map_round (cfg : Config) (palm_x palm_y : ℚ) : Option (ℤ × ℤ) :=
  let x_min := cfg.leap_x_range.1
  let x_max := cfg.leap_x_range.2
  let y_min := cfg.leap_y_range.1
  let y_max := cfg.leap_y_range.2
  if x_max - x_min = 0 ∨ y_max - y_min = 0 then none
  else
    let nx := max 0 (min 1 ((palm_x - x_min) / (x_max - x_min)))
    let ny := max 0 (min 1 ((palm_y - y_min) / (y_max - y_min)))
    let nx := max 0 (min 1 (1/2 + (nx - 1/2) * cfg.sensitivity))
    let ny := max 0 (min 1 (1/2 + (ny - 1/2) * cfg.sensitivity))
    some (round (nx * cfg.screen_width), round ((1 - ny) * cfg.screen_height))

/-! ## Concrete demonstration inputs -/

/-- Config whose axis ranges are degenerate on the x axis. -/
def degenerateConfig : Config := { defaultConfig with leap_x_range := (0, 0) }

/-- Unit-range screen-1000 config used by the mapping claims. -/
def mapDemoConfig : Config := { defaultConfig with
  leap_x_range := (0, 1)
  leap_y_range := (0, 1)
  sensitivity := 1
  screen_width := 1000
  screen_height := 1000 }

/-- A closed right fist (grab strength one). -/
def fistHand : Hand := ⟨0, 200, 0, 1, 0⟩

/-- Right hand with a given pinch strength, palm inside the default
tracking box. -/
def pinchHand (p : ℚ) : Hand := ⟨0, 225, 0, 0, p⟩

/-- Listener state whose click machine is Engaged (pinched at time 5,
not yet dragging). -/
def engagedDemoState : EngineState := { initial_state with
  is_pinched := true
  pinch_start_time := some 5 }

/-- Listener state in the middle of a drag (pinched since time 5 and
dragging). -/
def draggingDemoState : EngineState := { initial_state with
  is_pinched := true
  pinch_start_time := some 5
  is_dragging := true
  did_drag := true }

/-- Listener state inside an ExitPending episode whose hold started at
time 0. -/
def pendingDemoState : EngineState := { initial_state with
  mode := Mode.EXIT_PENDING
  exit_start_time := some 0 }

/-- Cursor-mode state carrying a smoothed position and smoothed pinch
from previous cursor frames. -/
def staleDemoState : EngineState := { initial_state with
  smoothed_position := some (100, 100)
  smoothed_pinch := 9/10 }

/-- Three frames of both fists held: entry at time 0, then frames at
1.0 and 1.1 seconds with the default one-second exit hold. -/
def exitEpisodeFrames : List (ℚ × Option Hand × Option Hand) :=
  [(0, some fistHand, some fistHand),
   (1, some fistHand, some fistHand),
   (11/10, some fistHand, some fistHand)]

/-! ## Claim C10 -/

/-- C10: in every iteration of the focus-polling loop in which the
focus collaborator returns no app name, the shared window-active flag
keeps its previous value and no button release occurs; the flag value
becomes the case-insensitive name comparison otherwise, and the
release fires exactly when the name compares unequal while the flag
was previously active. -/
theorem C10_focus_poll_gating (target_window : String) (window_active : Bool) :
    monitor_window_step target_window none window_active
      = (window_active, false) ∧
    ∀ app : String,
      (monitor_window_step target_window (some app) window_active).1
        = decide (target_window.toLower = app.toLower) ∧
      (monitor_window_step target_window (some app) window_active).2
        = (window_active && !(decide (target_window.toLower = app.toLower))) := by
  exact ⟨rfl, fun app => ⟨rfl, rfl⟩⟩

/-! ## Claim C7 -/

/-- C7: the program has no configuration-time validation of the axis
ranges; with a degenerate x range the division by zero happens inside
the per-frame mapping (modelled by `none`), i.e. the first cursor
frame raises rather than the configuration step failing fast. -/
theorem C7_degenerate_range_raises_in_frame :
    map_to_screen degenerateConfig 5 200 = none ∧
    on_tracking_event degenerateConfig 0 true none (some (pinchHand 0))
      initial_state = none := by
  constructor
  · with_unfolding_all rfl
  · with_unfolding_all rfl

/-! ## Claim C5 -/

/-- C5: mode selection equals the function the spec describes: no
hands or right hand only give Cursor, a lone left hand retains the
current mode, and with both hands present the mode is the stated
priority function of the two threshold classifications, which
themselves match the spec word for word. -/
theorem C5_mode_selection (cfg : Config) (m : Mode) :
    determine_mode cfg m none none = Mode.CURSOR ∧
    (∀ rh, determine_mode cfg m none (some rh) = Mode.CURSOR) ∧
    (∀ lh, determine_mode cfg m (some lh) none = m) ∧
    (∀ lh rh, determine_mode cfg m (some lh) (some rh) =
      spec_mode_both (get_hand_state cfg lh) (get_hand_state cfg rh)) ∧
    (∀ h, get_hand_state cfg h = spec_classify cfg h) := by
  refine ⟨rfl, fun rh => rfl, fun lh => rfl, fun lh rh => ?_, fun h => rfl⟩
  cases hls : get_hand_state cfg lh <;> cases hrs : get_hand_state cfg rh <;>
    simp [determine_mode, spec_mode_both, hls, hrs]

/-! ## Claim C6 -/

/-- C6 counterexample: exiting Cursor mode (a transition to Scroll)
leaves both Cursor-owned smoothed values in place, contradicting the
claim that every transition out of the owning mode resets them. -/
theorem C6_counterexample :
    staleDemoState.mode = Mode.CURSOR ∧
    (handle_mode_change Mode.SCROLL staleDemoState).1.mode = Mode.SCROLL ∧
    (handle_mode_change Mode.SCROLL staleDemoState).1.smoothed_position
      = some (100, 100) ∧
    (handle_mode_change Mode.SCROLL staleDemoState).1.smoothed_pinch = 9/10 := by
  refine ⟨rfl, ?_, ?_, ?_⟩ <;> with_unfolding_all decide

/-- C6 amended: every mode change clears the three per-mode anchors
(last scroll Y, last pan position, last inter-hand distance) but
preserves the Cursor-owned smoothed position and smoothed pinch; each
handler defines its owned anchor after its first processed sample. -/
theorem C6_amended :
    (∀ (s : EngineState) (m : Mode), m ≠ s.mode →
      (handle_mode_change m s).1.last_scroll_y = none ∧
      (handle_mode_change m s).1.last_hand_distance = none ∧
      (handle_mode_change m s).1.last_pan_pos = none ∧
      (handle_mode_change m s).1.smoothed_position = s.smoothed_position ∧
      (handle_mode_change m s).1.smoothed_pinch = s.smoothed_pinch) ∧
    (∀ cfg rh s, (handle_scroll_mode cfg rh s).1.last_scroll_y.isSome = true) ∧
    (∀ cfg lh rh s, (handle_pan_mode cfg lh rh s).1.last_pan_pos.isSome = true) ∧
    (∀ cfg lh rh s,
      (handle_zoom_mode cfg lh rh s).1.last_hand_distance.isSome = true) ∧
    (∀ cfg t rh s r, handle_cursor_mode cfg t rh s = some r →
      r.1.smoothed_position.isSome = true) := by
  refine ⟨?_, ?_, ?_, ?_, ?_⟩
  · intro s m hm
    rw [handle_mode_change, if_pos hm]
    cases hd : s.is_dragging <;> cases hp : s.is_panning <;>
      by_cases hme : m = Mode.EXIT_PENDING <;>
      simp [release_all_buttons, hd, hp, hme]
  · intro cfg rh s
    simp [handle_scroll_mode]
  · intro cfg lh rh s
    cases hp : s.is_panning <;> simp [handle_pan_mode, hp]
  · intro cfg lh rh s
    simp [handle_zoom_mode]
  · intro cfg t rh s r hr
    rw [handle_cursor_mode] at hr
    rcases hm : map_to_screen cfg rh.palm_x rh.palm_y with _ | sp
    · rw [hm] at hr; cases hr
    · rw [hm] at hr
      rcases hsp : s.smoothed_position with _ | prev <;>
        simp only [smooth_position, hsp, smooth_pinch] at hr <;>
        split_ifs at hr <;>
        (injection hr with hr; subst hr; rfl)

/-- C6 witness: the amended claim evaluated at concrete inputs. -/
theorem C6_witness :
    (handle_mode_change Mode.SCROLL staleDemoState).1.last_scroll_y = none ∧
    (handle_mode_change Mode.SCROLL staleDemoState).1.smoothed_position
      = staleDemoState.smoothed_position := by
  have h := (C6_amended.1 staleDemoState Mode.SCROLL (by decide))
  exact ⟨h.1, h.2.2.2.1⟩

/-! ## Claim C1 -/

/-- C1 counterexample: with the click machine Engaged (pinched, not
yet dragging), losing every hand from the frame leaves the state
completely untouched, and a mode change away from Cursor keeps both
`is_pinched` and `pinch_start_time`; moreover a frame where the owning
right hand disappears while the left hand remains, taken mid-drag,
releases nothing and leaves the drag button held.  The machine is not
forced to Idle as the claim states. -/
theorem C1_counterexample :
    engagedDemoState.is_pinched = true ∧
    engagedDemoState.is_dragging = false ∧
    on_tracking_event defaultConfig 6 true none none engagedDemoState
      = some (engagedDemoState, []) ∧
    (handle_mode_change Mode.SCROLL engagedDemoState).1.is_pinched = true ∧
    (handle_mode_change Mode.SCROLL engagedDemoState).1.pinch_start_time
      = some 5 ∧
    draggingDemoState.is_dragging = true ∧
    on_tracking_event defaultConfig 6 true (some (pinchHand 0)) none
      draggingDemoState = some (draggingDemoState, []) := by
  refine ⟨rfl, rfl, ?_, ?_, ?_, rfl, ?_⟩ <;> with_unfolding_all decide

/-- C1 amended: the forced release runs only on a frame with no hands
at all (and then only when a drag or pan is in progress), on focus
loss, or on a mode change; a frame where the owning right hand
disappears but the left hand remains, outside ExitPending, retains the
current mode, dispatches no handler and releases nothing, so a held
button stays held.  When release_all_buttons does run it releases any
held button and clears `is_dragging` and `is_panning`, clears
`is_pinched` only when a drag was in progress, and never clears
`pinch_start_time`; every forced path leaves `last_click_time`
unchanged, so it never counts toward double-click timing. -/
theorem C1_amended :
    (∀ s : EngineState,
      (release_all_buttons s).1.is_dragging = false ∧
      (release_all_buttons s).1.is_panning = false ∧
      (release_all_buttons s).1.is_pinched = (s.is_pinched && !s.is_dragging) ∧
      (release_all_buttons s).1.pinch_start_time = s.pinch_start_time ∧
      (release_all_buttons s).1.last_click_time = s.last_click_time ∧
      (release_all_buttons s).2
        = (if s.is_dragging then [Event.releaseLeft] else [])
          ++ (if s.is_panning then [Event.releaseMiddle] else [])) ∧
    (∀ (cfg : Config) (t : ℚ) (s : EngineState),
      s.is_dragging = false → s.is_panning = false →
      on_tracking_event cfg t true none none s = some (s, [])) ∧
    (∀ (cfg : Config) (t : ℚ) (s : EngineState),
      s.is_dragging = true ∨ s.is_panning = true →
      on_tracking_event cfg t true none none s
        = some (release_all_buttons s)) ∧
    (∀ (cfg : Config) (t : ℚ) (lh : Hand) (s : EngineState),
      s.mode ≠ Mode.EXIT_PENDING →
      on_tracking_event cfg t true (some lh) none s = some (s, [])) ∧
    (∀ (m : Mode) (s : EngineState),
      (handle_mode_change m s).1.last_click_time = s.last_click_time ∧
      (handle_mode_change m s).1.pinch_start_time = s.pinch_start_time) := by
  refine ⟨?_, ?_, ?_, ?_, ?_⟩
  · intro s
    cases hd : s.is_dragging <;> cases hp : s.is_panning <;>
      simp [release_all_buttons, hd, hp]
  · intro cfg t s hd hp
    simp [on_tracking_event, hd, hp]
  · intro cfg t s h
    rcases h with h | h <;> simp [on_tracking_event, h]
  · intro cfg t lh s hmode
    have hmc : handle_mode_change (determine_mode cfg s.mode (some lh) none) s
        = (s, []) := by
      rw [show determine_mode cfg s.mode (some lh) none = s.mode from rfl,
        handle_mode_change, if_neg (by simp)]
    have hdisp : dispatch_mode cfg t (some lh) none s = some (s, []) := by
      cases hm : s.mode
      case EXIT_PENDING => exact absurd hm hmode
      all_goals simp [dispatch_mode, hm]
    simp [on_tracking_event, hmc, hdisp]
  · intro m s
    rw [handle_mode_change]
    split_ifs with h1 h2 <;>
      cases hd : s.is_dragging <;> cases hp : s.is_panning <;>
        simp [release_all_buttons, hd, hp]

/-- C1 witness: the amended claim evaluated at concrete inputs. -/
theorem C1_witness :
    (release_all_buttons draggingDemoState).1.pinch_start_time = some 5 ∧
    (release_all_buttons draggingDemoState).1.last_click_time = 0 ∧
    on_tracking_event defaultConfig 7 true none none initial_state
      = some (initial_state, []) ∧
    on_tracking_event defaultConfig 7 true none none draggingDemoState
      = some (release_all_buttons draggingDemoState) ∧
    on_tracking_event defaultConfig 7 true (some (pinchHand 0)) none
      draggingDemoState = some (draggingDemoState, []) := by
  obtain ⟨h1, h2, h3, h4, _⟩ := C1_amended
  refine ⟨?_, ?_, h2 defaultConfig 7 initial_state rfl rfl,
    h3 defaultConfig 7 draggingDemoState (Or.inl rfl),
    h4 defaultConfig 7 (pinchHand 0) draggingDemoState (by decide)⟩
  · exact ((h1 draggingDemoState).2.2.2.1).trans rfl
  · exact ((h1 draggingDemoState).2.2.2.2.1).trans rfl

/-! ## Claim C2 -/

/-- C2 counterexample: an uninterrupted both-fists episode with frames
at 0, 1.0 and 1.1 seconds and the default one-second hold invokes the
exit callback twice, not exactly once. -/
theorem C2_counterexample :
    (run_frames defaultConfig exitEpisodeFrames initial_state).map
      (fun r => countEv Event.exitSignal r.2) = some 2 := by
  with_unfolding_all rfl

/-- C2 amended: during one uninterrupted ExitPending episode whose
hold started at time t0, the exit callback is invoked on exactly the
frames whose time t satisfies t - t0 at least exit_hold_time — at
least once when the hold completes, and then once per frame, not
exactly once overall. -/
theorem C2_amended (cfg : Config) (t0 : ℚ) (times : List ℚ) (s : EngineState)
    (h : s.exit_start_time = some t0) :
    (run_exit_pending cfg times s).1.exit_start_time = some t0 ∧
    (run_exit_pending cfg times s).2
      = (times.filter (fun t => cfg.exit_hold_time ≤ t - t0)).map
          (fun _ => Event.exitSignal) := by
  induction times generalizing s with
  | nil => exact ⟨h, rfl⟩
  | cons t rest ih =>
    have hstep : handle_exit_pending cfg t s
        = ({ s with exit_start_time := some t0 },
           if cfg.exit_hold_time ≤ t - t0 then [Event.exitSignal] else []) := by
      rw [handle_exit_pending, h]
      simp only [Option.getD_some]
      split_ifs <;> rfl
    have ihs := ih { s with exit_start_time := some t0 } rfl
    simp only [run_exit_pending, hstep, List.filter_cons]
    refine ⟨ihs.1, ?_⟩
    rw [ihs.2]
    by_cases hc : cfg.exit_hold_time ≤ t - t0 <;> simp [hc]

/-- C2 witness: the amended claim evaluated at a concrete episode. -/
theorem C2_witness :
    (run_exit_pending defaultConfig [1/2, 1, 11/10] pendingDemoState).2
      = [Event.exitSignal, Event.exitSignal] := by
  have h := (C2_amended defaultConfig 0 [1/2, 1, 11/10] pendingDemoState rfl).2
  rw [h]
  with_unfolding_all rfl

/-! ## Claims C8 and C9 -/

/-- A clamped value is nonnegative. -/
lemma clamp01_nonneg (q : ℚ) : 0 ≤ max 0 (min 1 q) := le_max_left 0 _

/-- A clamped value is at most one. -/
lemma clamp01_le_one (q : ℚ) : max 0 (min 1 q) ≤ 1 :=
  max_le zero_le_one (min_le_left 1 q)

/-- On nonnegative input, Python truncation is the floor. -/
lemma pythonInt_of_nonneg {q : ℚ} (h : 0 ≤ q) : pythonInt q = ⌊q⌋ := if_pos h

/-- Truncation of a value between 0 and a natural stays in range. -/
lemma pythonInt_bounds {q : ℚ} {n : ℕ} (h0 : 0 ≤ q) (h1 : q ≤ n) :
    0 ≤ pythonInt q ∧ pythonInt q ≤ (n : ℤ) := by
  rw [pythonInt_of_nonneg h0]
  exact ⟨Int.floor_nonneg.mpr h0,
    (Int.floor_le_floor h1).trans_eq (Int.floor_natCast n)⟩

/-- A clamped normalized coordinate scaled to the screen stays on it. -/
lemma pix_bounds (q : ℚ) (n : ℕ) :
    0 ≤ pythonInt (max 0 (min 1 q) * n) ∧
    pythonInt (max 0 (min 1 q) * n) ≤ (n : ℤ) := by
  refine pythonInt_bounds (mul_nonneg (clamp01_nonneg q) (by positivity)) ?_
  calc max 0 (min 1 q) * (n : ℚ) ≤ 1 * n :=
        mul_le_mul_of_nonneg_right (clamp01_le_one q) (by positivity)
    _ = n := one_mul _

/-- The inverted vertical coordinate scaled to the screen stays on it. -/
lemma pix_bounds_inv (q : ℚ) (n : ℕ) :
    0 ≤ pythonInt ((1 - max 0 (min 1 q)) * n) ∧
    pythonInt ((1 - max 0 (min 1 q)) * n) ≤ (n : ℤ) := by
  refine pythonInt_bounds
    (mul_nonneg (sub_nonneg.mpr (clamp01_le_one q)) (by positivity)) ?_
  calc (1 - max 0 (min 1 q)) * (n : ℚ) ≤ 1 * n := by
        apply mul_le_mul_of_nonneg_right _ (by positivity)
        have := clamp01_nonneg q
        linarith
    _ = n := one_mul _

/-- C8 counterexample: the claim computes pixels by rounding, but the
code truncates with int().  On the unit-range config with a 1000 pixel
screen, palm x = 0.7506 lands at 750.6 pixels: the code yields 750
while the claimed round formula yields 751. -/
theorem C8_counterexample :
    map_to_screen mapDemoConfig (7506/10000) (3/10) = some (750, 700) ∧
    spec_map_round mapDemoConfig (7506/10000) (3/10) = some (751, 700) ∧
    map_to_screen mapDemoConfig (7506/10000) (3/10)
      ≠ spec_map_round mapDemoConfig (7506/10000) (3/10) := by
  refine ⟨?_, ?_, ?_⟩ <;> with_unfolding_all decide

/-- C8 amended: for every configuration and palm position the mapping
equals the clamped-normalize, sensitivity-expand, invert-and-truncate
formula (floor on these nonnegative values) rather than the claimed
rounding formula; and for any configuration with sensitivity one and
non-degenerate ranges, a palm at the exact center of both ranges maps
to the floor of half the screen dimensions, which is the claimed
center pixel within rounding. -/
theorem C8_amended :
    (∀ (cfg : Config) (x y : ℚ),
      map_to_screen cfg x y = spec_map_floor cfg x y) ∧
    (∀ cfg : Config, cfg.sensitivity = 1 →
      cfg.leap_x_range.2 - cfg.leap_x_range.1 ≠ 0 →
      cfg.leap_y_range.2 - cfg.leap_y_range.1 ≠ 0 →
      map_to_screen cfg ((cfg.leap_x_range.1 + cfg.leap_x_range.2) / 2)
          ((cfg.leap_y_range.1 + cfg.leap_y_range.2) / 2)
        = some (⌊(cfg.screen_width : ℚ) / 2⌋,
            ⌊(cfg.screen_height : ℚ) / 2⌋)) := by
  constructor
  · intro cfg x y
    simp only [map_to_screen, spec_map_floor]
    split_ifs with hc
    · rfl
    · rw [pythonInt_of_nonneg (mul_nonneg (clamp01_nonneg _) (by positivity)),
        pythonInt_of_nonneg (mul_nonneg
          (sub_nonneg.mpr (clamp01_le_one _)) (by positivity))]
  · intro cfg hs hx hy
    have hnx : ((cfg.leap_x_range.1 + cfg.leap_x_range.2) / 2
        - cfg.leap_x_range.1) / (cfg.leap_x_range.2 - cfg.leap_x_range.1)
        = 1/2 := by
      field_simp
      ring
    have hny : ((cfg.leap_y_range.1 + cfg.leap_y_range.2) / 2
        - cfg.leap_y_range.1) / (cfg.leap_y_range.2 - cfg.leap_y_range.1)
        = 1/2 := by
      field_simp
      ring
    simp only [map_to_screen, hnx, hny, hs]
    rw [if_neg (by push_neg; exact ⟨hx, hy⟩)]
    have hhalf : max 0 (min 1 (1/2 : ℚ)) = 1/2 := by norm_num
    rw [hhalf]
    have hexp : (1/2 : ℚ) + (1/2 - 1/2) * 1 = 1/2 := by norm_num
    rw [hexp, hhalf]
    have h1 : pythonInt (1/2 * (cfg.screen_width : ℚ))
        = ⌊(cfg.screen_width : ℚ) / 2⌋ := by
      rw [pythonInt_of_nonneg (by positivity)]
      congr 1
      ring
    have h2 : pythonInt ((1 - 1/2) * (cfg.screen_height : ℚ))
        = ⌊(cfg.screen_height : ℚ) / 2⌋ := by
      rw [pythonInt_of_nonneg (by positivity)]
      congr 1
      ring
    rw [h1, h2]

/-- C8 witness: the amended claim evaluated on the unit-range config
with a 1000 x 1000 screen. -/
theorem C8_witness :
    map_to_screen mapDemoConfig
        ((mapDemoConfig.leap_x_range.1 + mapDemoConfig.leap_x_range.2) / 2)
        ((mapDemoConfig.leap_y_range.1 + mapDemoConfig.leap_y_range.2) / 2)
      = some (500, 500) := by
  have h := C8_amended.2 mapDemoConfig rfl (by with_unfolding_all decide)
    (by with_unfolding_all decide)
  exact h.trans (by with_unfolding_all rfl)

/-- C9: with non-degenerate axis ranges, the mapping succeeds on every
finite palm position and any sensitivity, and the resulting pixel pair
always satisfies 0 ≤ px ≤ screen_width and 0 ≤ py ≤ screen_height,
because both normalized coordinates are clamped before scaling. -/
theorem C9_mapping_clamped (cfg : Config) (x y : ℚ)
    (hx : cfg.leap_x_range.2 - cfg.leap_x_range.1 ≠ 0)
    (hy : cfg.leap_y_range.2 - cfg.leap_y_range.1 ≠ 0) :
    (map_to_screen cfg x y).elim False (fun p =>
      0 ≤ p.1 ∧ p.1 ≤ (cfg.screen_width : ℤ) ∧
      0 ≤ p.2 ∧ p.2 ≤ (cfg.screen_height : ℤ)) := by
  rw [map_to_screen]
  rw [if_neg (by push_neg; exact ⟨hx, hy⟩)]
  exact ⟨(pix_bounds _ _).1, (pix_bounds _ _).2,
    (pix_bounds_inv _ _).1, (pix_bounds_inv _ _).2⟩

/-- C9 witness: a palm far outside the tracking box still maps inside
the default 1920 x 1080 screen. -/
theorem C9_witness :
    (map_to_screen defaultConfig 1000000 (-1000000)).elim False (fun p =>
      0 ≤ p.1 ∧ p.1 ≤ (defaultConfig.screen_width : ℤ) ∧
      0 ≤ p.2 ∧ p.2 ≤ (defaultConfig.screen_height : ℤ)) :=
  C9_mapping_clamped defaultConfig 1000000 (-1000000)
    (by with_unfolding_all decide) (by with_unfolding_all decide)

/-! ## Claim C4 -/

/-- When both axis ranges are non-degenerate the mapping always
produces a pixel pair. -/
lemma map_to_screen_eq_some (cfg : Config) (x y : ℚ)
    (hx : cfg.leap_x_range.2 - cfg.leap_x_range.1 ≠ 0)
    (hy : cfg.leap_y_range.2 - cfg.leap_y_range.1 ≠ 0) :
    ∃ p, map_to_screen cfg x y = some p := by
  rw [map_to_screen, if_neg (by push_neg; exact ⟨hx, hy⟩)]
  exact ⟨_, rfl⟩

/-- Pinch-engagement flag observed after each cursor frame. -/
def pinch_flag_trace (cfg : Config) (frames : List (ℚ × Hand))
    (s : EngineState) : Option (List Bool) :=
  match frames with
  | [] => some []
  | (t, h) :: rest =>
    match handle_cursor_mode cfg t h s with
    | none => none
    | some (s1, _) =>
      (pinch_flag_trace cfg rest s1).map (fun l => s1.is_pinched :: l)

/-- Cursor config with pinch smoothing disabled, so the machine sees
the raw samples as its smoothed sequence. -/
def hysteresisConfig : Config := { defaultConfig with pinch_smoothing := 0 }

/-- The hysteresis test sequence 0, 0.5, 0.75, 0.5, 0.35, 0.2 fed at
10 ms intervals. -/
def hysteresisFrames : List (ℚ × Hand) :=
  [(0, pinchHand 0), (1/100, pinchHand (1/2)), (2/100, pinchHand (3/4)),
   (3/100, pinchHand (1/2)), (4/100, pinchHand (7/20)),
   (5/100, pinchHand (1/5))]

set_option maxHeartbeats 2000000 in
/-- C4: on every cursor frame the machine engages exactly when the
smoothed pinch is at least pinch_engage while not engaged, and
releases exactly when it is strictly below pinch_release while
engaged; and on the spec sequence 0, 0.5, 0.75, 0.5, 0.35, 0.2 with
engage 0.7 and release 0.3 the flag trace is
false, false, true, true, true, false — engaging once at the 0.75
sample and releasing once at the 0.2 sample with no toggling at 0.5
or 0.35. -/
theorem C4_hysteresis :
    (∀ (cfg : Config) (t : ℚ) (rh : Hand) (s : EngineState),
      cfg.leap_x_range.2 - cfg.leap_x_range.1 ≠ 0 →
      cfg.leap_y_range.2 - cfg.leap_y_range.1 ≠ 0 →
      (handle_cursor_mode cfg t rh s).map (fun r => r.1.is_pinched)
        = some (if s.is_pinched = true
            then !(decide ((1 - cfg.pinch_smoothing) * rh.pinch_strength
              + cfg.pinch_smoothing * s.smoothed_pinch < cfg.pinch_release))
            else decide (cfg.pinch_engage
              ≤ (1 - cfg.pinch_smoothing) * rh.pinch_strength
                + cfg.pinch_smoothing * s.smoothed_pinch))) ∧
    pinch_flag_trace hysteresisConfig hysteresisFrames initial_state
      = some [false, false, true, true, true, false] := by
  constructor
  · intro cfg t rh s hx hy
    obtain ⟨sp, hsp⟩ := map_to_screen_eq_some cfg rh.palm_x rh.palm_y hx hy
    rw [handle_cursor_mode, hsp]
    clear hsp hx hy
    rcases hpos : s.smoothed_position with _ | prev <;>
      cases hp : s.is_pinched <;>
      simp only [smooth_position, hpos, smooth_pinch, hp] <;>
      split_ifs <;>
      simp_all
  · with_unfolding_all rfl

/-- C4 witness: the per-frame characterization evaluated at a raw
pinch of one from the initial state (smoothed value one half stays
below the 0.7 engage threshold). -/
theorem C4_witness :
    (handle_cursor_mode defaultConfig 0 (pinchHand 1) initial_state).map
      (fun r => r.1.is_pinched) = some false := by
  have h := C4_hysteresis.1 defaultConfig 0 (pinchHand 1) initial_state
    (by with_unfolding_all decide) (by with_unfolding_all decide)
  rw [h]
  with_unfolding_all rfl

/-! ## Claim C3 -/

/-- Event counts add over concatenation. -/
lemma countEv_append (e : Event) (a b : List Event) :
    countEv e (a ++ b) = countEv e a + countEv e b := by
  simp [countEv, List.filter_append]

/-- Running the cursor handler over concatenated frame lists composes. -/
lemma run_cursor_append (cfg : Config) (l1 l2 : List (ℚ × Hand)) :
    ∀ s : EngineState, run_cursor cfg (l1 ++ l2) s
      = match run_cursor cfg l1 s with
        | none => none
        | some (s1, evs1) =>
          match run_cursor cfg l2 s1 with
          | none => none
          | some (s2, evs2) => some (s2, evs1 ++ evs2) := by
  induction l1 with
  | nil =>
    intro s
    rw [List.nil_append]
    cases hr : run_cursor cfg l2 s with
    | none => simp [run_cursor, hr]
    | some r => simp [run_cursor, hr]
  | cons f rest ih =>
    intro s
    obtain ⟨t, h⟩ := f
    rw [List.cons_append]
    rw [run_cursor]
    conv_rhs => rw [run_cursor]
    cases hstep : handle_cursor_mode cfg t h s with
    | none => rfl
    | some r =>
      obtain ⟨s1, evs1⟩ := r
      dsimp only
      rw [ih s1]
      cases h1 : run_cursor cfg rest s1 with
      | none => rfl
      | some r1 =>
        obtain ⟨s2, evs2⟩ := r1
        dsimp only
        cases h2 : run_cursor cfg l2 s2 with
        | none => rfl
        | some r2 =>
          obtain ⟨s3, evs3⟩ := r2
          dsimp only
          rw [List.append_assoc]

/-- One cursor frame from an Engaged state whose smoothed pinch stays
at or above the release threshold: the machine remains engaged with
its start time and click time intact, and emits a press exactly when
the drag delay first elapses. -/
lemma engaged_step (cfg : Config) (t : ℚ) (h : Hand) (s : EngineState)
    (t0 : ℚ)
    (hx : cfg.leap_x_range.2 - cfg.leap_x_range.1 ≠ 0)
    (hy : cfg.leap_y_range.2 - cfg.leap_y_range.1 ≠ 0)
    (hp : s.is_pinched = true)
    (hst : s.pinch_start_time = some t0)
    (hdd : s.did_drag = s.is_dragging)
    (hrel : cfg.pinch_release ≤ (1 - cfg.pinch_smoothing) * h.pinch_strength
      + cfg.pinch_smoothing * s.smoothed_pinch) :
    ∃ s1 evs, handle_cursor_mode cfg t h s = some (s1, evs) ∧
      s1.is_pinched = true ∧
      s1.pinch_start_time = some t0 ∧
      s1.did_drag = s1.is_dragging ∧
      s1.last_click_time = s.last_click_time ∧
      s1.smoothed_pinch = (1 - cfg.pinch_smoothing) * h.pinch_strength
        + cfg.pinch_smoothing * s.smoothed_pinch ∧
      (s.is_dragging = true → s1.is_dragging = true) ∧
      (cfg.drag_delay ≤ t - t0 → s1.is_dragging = true) ∧
      (s.is_dragging = false → t - t0 < cfg.drag_delay →
        s1.is_dragging = false) ∧
      countEv Event.pressLeft evs
        = (if s.is_dragging = false ∧ s1.is_dragging = true then 1 else 0) ∧
      countEv Event.releaseLeft evs = 0 ∧
      (∀ n, countEv (Event.clickLeft n) evs = 0) := by
  obtain ⟨sp, hsp⟩ := map_to_screen_eq_some cfg h.palm_x h.palm_y hx hy
  rw [handle_cursor_mode, hsp]
  clear hsp hx hy
  have hnotlt : ¬((1 - cfg.pinch_smoothing) * h.pinch_strength
      + cfg.pinch_smoothing * s.smoothed_pinch < cfg.pinch_release) :=
    not_lt.mpr hrel
  rcases hpos : s.smoothed_position with _ | prev <;>
  · simp only [smooth_position, hpos, smooth_pinch]
    try dsimp only
    rw [if_neg (by simp [hp])]
    simp only [hst, Option.getD_some]
    by_cases hdrag : s.is_dragging = false ∧ cfg.drag_delay ≤ t - t0
    · rw [if_pos hdrag, if_neg hnotlt]
      refine ⟨_, _, rfl, hp, rfl, rfl, rfl, rfl, ?_, ?_, ?_, ?_, ?_, ?_⟩
      · intro _; rfl
      · intro _; rfl
      · intro _ hlt; exact absurd hdrag.2 (not_le.mpr hlt)
      · simp [countEv, hdrag.1]
      · simp [countEv]
      · intro n; simp [countEv]
    · rw [if_neg hdrag, if_neg hnotlt]
      push_neg at hdrag
      refine ⟨_, _, rfl, hp, rfl, hdd, rfl, rfl, ?_, ?_, ?_, ?_, ?_, ?_⟩
      · intro hsd; exact hsd
      · intro hle
        cases hsd : s.is_dragging with
        | true => rfl
        | false => exact absurd hle (not_le.mpr (hdrag hsd))
      · intro hsd _; exact hsd
      · cases hsd : s.is_dragging <;> simp [countEv, hsd]
      · simp [countEv]
      · intro n; simp [countEv]

/-- The cursor frame on which an Engaged machine sees its smoothed
pinch drop strictly below the release threshold: if a drag is running
or the drag delay has elapsed, the frame ends the drag (press first
when the delay elapsed only now); otherwise it emits exactly one
click, a double click exactly when the previous click is within the
double-click window, and records the click time. -/
lemma engaged_release_step (cfg : Config) (t : ℚ) (h : Hand)
    (s : EngineState) (t0 : ℚ)
    (hx : cfg.leap_x_range.2 - cfg.leap_x_range.1 ≠ 0)
    (hy : cfg.leap_y_range.2 - cfg.leap_y_range.1 ≠ 0)
    (hp : s.is_pinched = true)
    (hst : s.pinch_start_time = some t0)
    (hdd : s.did_drag = s.is_dragging)
    (hrel : (1 - cfg.pinch_smoothing) * h.pinch_strength
      + cfg.pinch_smoothing * s.smoothed_pinch < cfg.pinch_release) :
    ∃ s1 evs, handle_cursor_mode cfg t h s = some (s1, evs) ∧
      s1.is_pinched = false ∧
      ((s.is_dragging = true ∨ cfg.drag_delay ≤ t - t0) →
        countEv Event.pressLeft evs = (if s.is_dragging = false then 1 else 0) ∧
        countEv Event.releaseLeft evs = 1 ∧
        (∀ n, countEv (Event.clickLeft n) evs = 0) ∧
        s1.last_click_time = s.last_click_time) ∧
      (s.is_dragging = false → t - t0 < cfg.drag_delay →
        countEv Event.pressLeft evs = 0 ∧
        countEv Event.releaseLeft evs = 0 ∧
        countEv (Event.clickLeft 1) evs
          = (if t - s.last_click_time ≤ cfg.double_click_window then 0 else 1) ∧
        countEv (Event.clickLeft 2) evs
          = (if t - s.last_click_time ≤ cfg.double_click_window then 1 else 0) ∧
        s1.last_click_time = t) := by
  obtain ⟨sp, hsp⟩ := map_to_screen_eq_some cfg h.palm_x h.palm_y hx hy
  rw [handle_cursor_mode, hsp]
  clear hsp hx hy
  rcases hpos : s.smoothed_position with _ | prev <;>
  · simp only [smooth_position, hpos, smooth_pinch]
    try dsimp only
    rw [if_neg (by simp [hp])]
    simp only [hst, Option.getD_some]
    by_cases hdrag : s.is_dragging = false ∧ cfg.drag_delay ≤ t - t0
    · rw [if_pos hdrag, if_pos hrel, if_pos rfl]
      refine ⟨_, _, rfl, rfl, ?_, ?_⟩
      · intro _
        rw [if_pos hdrag.1]
        refine ⟨by simp [countEv], by simp [countEv], ?_, rfl⟩
        intro n
        simp [countEv]
      · intro _ hlt
        exact absurd hdrag.2 (not_le.mpr hlt)
    · rw [if_neg hdrag, if_pos hrel]
      cases hsd : s.is_dragging with
      | true =>
        rw [if_pos rfl]
        refine ⟨_, _, rfl, rfl, ?_, ?_⟩
        · intro _
          rw [if_neg (by simp [hsd])]
          refine ⟨by simp [countEv], by simp [countEv], ?_, rfl⟩
          intro n
          simp [countEv]
        · intro h1 _
          exact absurd h1 (by simp [hsd])
      | false =>
        have hnle : ¬cfg.drag_delay ≤ t - t0 := by
          intro hle
          exact hdrag ⟨hsd, hle⟩
        rw [if_neg (by simp [hsd]), if_pos (hdd.trans hsd)]
        by_cases hw : t - s.last_click_time ≤ cfg.double_click_window
        · rw [if_pos hw]
          refine ⟨_, _, rfl, rfl, ?_, ?_⟩
          · intro hor
            rcases hor with h1 | h1
            · exact absurd h1 (by simp [hsd])
            · exact absurd h1 hnle
          · intro _ _
            rw [if_pos hw, if_pos hw]
            exact ⟨by simp [countEv], by simp [countEv],
              by simp [countEv], by simp [countEv], rfl⟩
        · rw [if_neg hw]
          refine ⟨_, _, rfl, rfl, ?_, ?_⟩
          · intro hor
            rcases hor with h1 | h1
            · exact absurd h1 (by simp [hsd])
            · exact absurd h1 hnle
          · intro _ _
            rw [if_neg hw, if_neg hw]
            exact ⟨by simp [countEv], by simp [countEv],
              by simp [countEv], by simp [countEv], rfl⟩

/-- A run of cursor frames whose smoothed pinch values all stay at or
above the release threshold keeps the machine engaged: the start and
click times survive, at most one press is emitted (exactly when the
drag delay elapses during the run), and no release or click occurs. -/
lemma run_cursor_engaged (cfg : Config)
    (hx : cfg.leap_x_range.2 - cfg.leap_x_range.1 ≠ 0)
    (hy : cfg.leap_y_range.2 - cfg.leap_y_range.1 ≠ 0) :
    ∀ (mid : List (ℚ × Hand)) (s : EngineState) (t0 : ℚ),
      s.is_pinched = true →
      s.pinch_start_time = some t0 →
      s.did_drag = s.is_dragging →
      (∀ q ∈ smooth_trace cfg.pinch_smoothing s.smoothed_pinch
        (mid.map (fun f => f.2.pinch_strength)), cfg.pinch_release ≤ q) →
      ∃ s1 evs, run_cursor cfg mid s = some (s1, evs) ∧
        s1.is_pinched = true ∧
        s1.pinch_start_time = some t0 ∧
        s1.did_drag = s1.is_dragging ∧
        s1.last_click_time = s.last_click_time ∧
        s1.smoothed_pinch = smooth_final cfg.pinch_smoothing s.smoothed_pinch
          (mid.map (fun f => f.2.pinch_strength)) ∧
        (s.is_dragging = true → s1.is_dragging = true) ∧
        ((∀ f ∈ mid, f.1 - t0 < cfg.drag_delay) → s.is_dragging = false →
          s1.is_dragging = false) ∧
        countEv Event.pressLeft evs
          = (if s.is_dragging = false ∧ s1.is_dragging = true then 1 else 0) ∧
        countEv Event.releaseLeft evs = 0 ∧
        (∀ n, countEv (Event.clickLeft n) evs = 0) := by
  intro mid
  induction mid with
  | nil =>
    intro s t0 hp hst hdd _
    refine ⟨s, [], rfl, hp, hst, hdd, rfl, rfl, fun h => h, fun _ h => h,
      ?_, rfl, fun n => rfl⟩
    cases hsd : s.is_dragging <;> simp [countEv, hsd]
  | cons f rest ih =>
    obtain ⟨t, h⟩ := f
    intro s t0 hp hst hdd htr
    have htr0 := htr ((1 - cfg.pinch_smoothing) * h.pinch_strength
      + cfg.pinch_smoothing * s.smoothed_pinch) (by
        simp only [List.map_cons, smooth_trace]
        exact List.mem_cons_self _ _)
    obtain ⟨sa, evsa, hstep, hap, hast, hadd, haclick, hasmooth, hamono,
      hadelay, hanodrag, hapress, harel, haclicks⟩ :=
      engaged_step cfg t h s t0 hx hy hp hst hdd htr0
    have htr1 : ∀ q ∈ smooth_trace cfg.pinch_smoothing sa.smoothed_pinch
        (rest.map (fun f => f.2.pinch_strength)), cfg.pinch_release ≤ q := by
      intro q hq
      refine htr q ?_
      simp only [List.map_cons, smooth_trace]
      rw [hasmooth] at hq
      exact List.mem_cons_of_mem _ hq
    obtain ⟨s1, evs1, hrun, h1p, h1st, h1dd, h1click, h1smooth, h1mono,
      h1nodrag, h1press, h1rel, h1clicks⟩ := ih sa t0 hap hast hadd htr1
    refine ⟨s1, evsa ++ evs1, ?_, h1p, h1st, h1dd,
      h1click.trans haclick, ?_, ?_, ?_, ?_, ?_, ?_⟩
    · rw [run_cursor, hstep]
      dsimp only
      rw [hrun]
    · rw [h1smooth, hasmooth]
      simp [smooth_final]
    · intro hsd
      exact h1mono (hamono hsd)
    · intro hdur hsd
      refine h1nodrag (fun g hg => hdur g (List.mem_cons_of_mem _ hg)) ?_
      exact hanodrag hsd (hdur (t, h) (List.mem_cons_self _ _))
    · rw [countEv_append, hapress, h1press]
      cases hsd : s.is_dragging with
      | true =>
        have ha := hamono hsd
        have h1 := h1mono ha
        simp [hsd, ha, h1]
      | false =>
        cases had : sa.is_dragging with
        | true =>
          have h1 := h1mono had
          simp [hsd, had, h1]
        | false =>
          cases h1d : s1.is_dragging <;> simp [hsd, had, h1d]
    · rw [countEv_append, harel, h1rel]
    · intro n
      rw [countEv_append, haclicks n, h1clicks n]

/-- C3: in Cursor mode, an Engaged pinch episode that ends with the
smoothed pinch dropping strictly below pinch_release emits, when the
release comes strictly before drag_delay has elapsed, exactly one
click — a double click exactly when the previous click on the hand
ended within double_click_window — and zero drag events; and when the
pinch was held at least drag_delay, exactly one press (drag start)
and one release (drag end) and zero click events. -/
theorem C3_click_vs_drag (cfg : Config)
    (hx : cfg.leap_x_range.2 - cfg.leap_x_range.1 ≠ 0)
    (hy : cfg.leap_y_range.2 - cfg.leap_y_range.1 ≠ 0)
    (s : EngineState) (t0 : ℚ) (mid : List (ℚ × Hand)) (t_rel : ℚ)
    (h_rel : Hand)
    (hp : s.is_pinched = true)
    (hst : s.pinch_start_time = some t0)
    (hnd : s.is_dragging = false)
    (hdd : s.did_drag = false)
    (hmono : ∀ f ∈ mid, f.1 ≤ t_rel)
    (hmid : ∀ q ∈ smooth_trace cfg.pinch_smoothing s.smoothed_pinch
      (mid.map (fun f => f.2.pinch_strength)), cfg.pinch_release ≤ q)
    (hfin : (1 - cfg.pinch_smoothing) * h_rel.pinch_strength
      + cfg.pinch_smoothing * smooth_final cfg.pinch_smoothing
        s.smoothed_pinch (mid.map (fun f => f.2.pinch_strength))
      < cfg.pinch_release) :
    ∃ s1 evs, run_cursor cfg (mid ++ [(t_rel, h_rel)]) s = some (s1, evs) ∧
      s1.is_pinched = false ∧
      (t_rel - t0 < cfg.drag_delay →
        countEv Event.pressLeft evs = 0 ∧
        countEv Event.releaseLeft evs = 0 ∧
        countEv (Event.clickLeft 1) evs
          = (if t_rel - s.last_click_time ≤ cfg.double_click_window
             then 0 else 1) ∧
        countEv (Event.clickLeft 2) evs
          = (if t_rel - s.last_click_time ≤ cfg.double_click_window
             then 1 else 0)) ∧
      (cfg.drag_delay ≤ t_rel - t0 →
        countEv Event.pressLeft evs = 1 ∧
        countEv Event.releaseLeft evs = 1 ∧
        (∀ n, countEv (Event.clickLeft n) evs = 0)) := by
  obtain ⟨sm, evsm, hrunm, hmp, hmst, hmdd, hmclick, hmsmooth, hmmono,
    hmnodrag, hmpress, hmrel, hmclicks⟩ :=
    run_cursor_engaged cfg hx hy mid s t0 hp hst (hdd.trans hnd.symm) hmid
  have hfin2 : (1 - cfg.pinch_smoothing) * h_rel.pinch_strength
      + cfg.pinch_smoothing * sm.smoothed_pinch < cfg.pinch_release := by
    rw [hmsmooth]
    exact hfin
  obtain ⟨s1, evsf, hstepf, h1p, hdragcase, hclickcase⟩ :=
    engaged_release_step cfg t_rel h_rel sm t0 hx hy hmp hmst hmdd hfin2
  have hrunsingle : run_cursor cfg [(t_rel, h_rel)] sm = some (s1, evsf) := by
    rw [run_cursor, hstepf]
    simp [run_cursor]
  refine ⟨s1, evsm ++ evsf, ?_, h1p, ?_, ?_⟩
  · rw [run_cursor_append cfg mid [(t_rel, h_rel)] s, hrunm]
    dsimp only
    rw [hrunsingle]
  · intro hlt
    have hdurs : ∀ f ∈ mid, f.1 - t0 < cfg.drag_delay := by
      intro f hf
      have := hmono f hf
      linarith
    have hmnd : sm.is_dragging = false := hmnodrag hdurs hnd
    obtain ⟨hfp, hfr, hfc1, hfc2, hflast⟩ := hclickcase hmnd hlt
    rw [hmclick] at hfc1 hfc2
    refine ⟨?_, ?_, ?_, ?_⟩
    · rw [countEv_append, hmpress, hfp]
      simp [hnd, hmnd]
    · rw [countEv_append, hmrel, hfr]
    · rw [countEv_append, hmclicks 1, hfc1, Nat.zero_add]
    · rw [countEv_append, hmclicks 2, hfc2, Nat.zero_add]
  · intro hge
    obtain ⟨hfp, hfr, hfcs, _⟩ := hdragcase (Or.inr hge)
    refine ⟨?_, ?_, ?_⟩
    · rw [countEv_append, hmpress, hfp]
      cases hmd : sm.is_dragging <;> simp [hnd, hmd]
    · rw [countEv_append, hmrel, hfr]
    · intro n
      rw [countEv_append, hmclicks n, hfcs n]

/-- Engaged click-machine state: pinched at time 0 with smoothed pinch
one and the previous click far in the past. -/
def clickDemoState : EngineState := { initial_state with
  is_pinched := true
  pinch_start_time := some 0
  smoothed_pinch := 1
  last_click_time := -10 }

/-- C3 witness: a pinch engaged at time 0, held at 0.05 s and released
at 0.10 s (before the 0.15 s drag delay) produces exactly one single
click and no drag events. -/
theorem C3_witness :
    (run_cursor hysteresisConfig
        ([((1:ℚ)/20, pinchHand (8/10))] ++ [((1:ℚ)/10, pinchHand (1/5))])
        clickDemoState).map
      (fun r => (r.1.is_pinched, countEv Event.pressLeft r.2,
        countEv Event.releaseLeft r.2, countEv (Event.clickLeft 1) r.2,
        countEv (Event.clickLeft 2) r.2))
      = some (false, 0, 0, 1, 0) := by
  obtain ⟨s1, evs, hrun, h1p, hclick, _⟩ :=
    C3_click_vs_drag hysteresisConfig (by with_unfolding_all decide)
      (by with_unfolding_all decide) clickDemoState 0
      [((1:ℚ)/20, pinchHand (8/10))] ((1:ℚ)/10) (pinchHand (1/5))
      rfl rfl rfl rfl
      (by
        intro f hf
        simp only [List.mem_singleton] at hf
        subst hf
        with_unfolding_all decide)
      (by
        intro q hq
        have he : smooth_trace hysteresisConfig.pinch_smoothing
            clickDemoState.smoothed_pinch
            (List.map (fun f => f.2.pinch_strength)
              [((1:ℚ)/20, pinchHand (8/10))]) = [4/5] := by
          with_unfolding_all rfl
        rw [he] at hq
        simp only [List.mem_singleton] at hq
        subst hq
        with_unfolding_all decide)
      (by with_unfolding_all decide)
  obtain ⟨hp0, hr0, hc1, hc2⟩ := hclick (by with_unfolding_all decide)
  have hw : ¬((1:ℚ)/10 - clickDemoState.last_click_time
      ≤ hysteresisConfig.double_click_window) := by
    with_unfolding_all decide
  rw [if_neg hw] at hc1 hc2
  rw [hrun]
  simp [h1p, hp0, hr0, hc1, hc2]
